import Mathlib

/-!
Verification of the goolx session-management layer against its specification.

The Go sources are shallowly embedded: the engine (olxapi.dll) is treated as
an oracle whose per-call outcome is a parameter of each modelled function, and
the session flags, iterator states and the generic data-access batch are
modelled as pure state-passing functions mirroring the Go control flow.
-/

namespace Goolx

/-- Errors produced by the layer.  `apiErr` is `ErrOlxAPI{function, err}`;
`faultNotRun` / `faultNotPicked` are the wrapped `ErrFaultNotRun` /
`ErrFaultNotPicked` sentinels ("fault not simulated" / "fault not picked");
`tokenDataMismatch` is the `Scan: token and data numbers don't match` error;
`unsupportedScan` and `nilPointer` come from `convertAssignData`. -/
inductive GoError where
  | apiErr (fn : String) (msg : String)
  | faultNotRun (fn : String)
  | faultNotPicked (fn : String)
  | tokenDataMismatch
  | unsupportedScan (srcTy : String) (destTy : String)
  | nilPointer
deriving DecidableEq

/-- Outcome of a single native engine invocation: `OLXAPIOk` or
`OLXAPIFailure` together with the out-of-band error string. -/
inductive EngineRes where
  | ok
  | fail (msg : String)
deriving DecidableEq

/-- The two session booleans of `olxapi.OlxAPI` (`faultRun`, `faultPicked`). -/
structure FaultState where
  faultRun : Bool
  faultPicked : Bool
deriving DecidableEq

/-- Observable actions of a fault-session call, used to record that the flag
reset happens before the native procedure is invoked. -/
inductive FaultAction where
  | reset
  | engineCall
  | setRun
deriving DecidableEq

/-- `OlxAPI.resetFault`: sets both flags to false. -/
def resetFault (_ : FaultState) : FaultState := ⟨false, false⟩

/-- `OlxAPI.DoFault`: resets the flags, invokes the engine, sets `faultRun`,
and on `OLXAPIFailure` resets again and returns `ErrOlxAPI`.  Returns the
final state, the returned error, and the trace of session actions in order. -/
def doFault (s : FaultState) (r : EngineRes) :
    FaultState × Option GoError × List FaultAction :=
  let s1 := resetFault s
  let s2 := { s1 with faultRun := true }
  match r with
  | .ok => (s2, none, [.reset, .engineCall, .setRun])
  | .fail m =>
      (resetFault s2, some (.apiErr "DoFault" m), [.reset, .engineCall, .setRun, .reset])

/-- `OlxAPI.DoSteppedEvent`: identical session-flag handling to `DoFault`. -/
def doSteppedEvent (s : FaultState) (r : EngineRes) :
    FaultState × Option GoError × List FaultAction :=
  let s1 := resetFault s
  let s2 := { s1 with faultRun := true }
  match r with
  | .ok => (s2, none, [.reset, .engineCall, .setRun])
  | .fail m =>
      (resetFault s2, some (.apiErr "DoSteppedEvent" m), [.reset, .engineCall, .setRun, .reset])

/-- `OlxAPI.PickFault`: guarded by `faultRun`; on the guard failure the engine
is not called (third component `false`).  Otherwise sets `faultPicked` to
`true`, clearing it again when the engine reports failure. -/
def pickFault (s : FaultState) (r : EngineRes) :
    FaultState × Option GoError × Bool :=
  if s.faultRun = false then
    (s, some (.faultNotRun "PickFault"), false)
  else
    match r with
    | .ok => ({ s with faultPicked := true }, none, true)
    | .fail m => ({ s with faultPicked := false }, some (.apiErr "PickFault" m), true)

/-- `OlxAPI.GetSCVoltage`: requires `faultRun` then `faultPicked`, in that
order, before invoking the engine (the boolean reports whether the engine was
called).  The session state is never modified. -/
def getSCVoltage (s : FaultState) (r : EngineRes) : Option GoError × Bool :=
  if s.faultRun = false then (some (.faultNotRun "GetSCVoltage"), false)
  else if s.faultPicked = false then (some (.faultNotPicked "GetSCVoltage"), false)
  else
    match r with
    | .ok => (none, true)
    | .fail m => (some (.apiErr "GetSCVoltage" m), true)

/-- `OlxAPI.GetSCCurrent`: same gating as `GetSCVoltage`. -/
def getSCCurrent (s : FaultState) (r : EngineRes) : Option GoError × Bool :=
  if s.faultRun = false then (some (.faultNotRun "GetSCCurrent"), false)
  else if s.faultPicked = false then (some (.faultNotPicked "GetSCCurrent"), false)
  else
    match r with
    | .ok => (none, true)
    | .fail m => (some (.apiErr "GetSCCurrent" m), true)

/-- One call of the fault session, with the engine outcome it observed. -/
inductive FaultOp where
  | doFaultOp (r : EngineRes)
  | doSteppedOp (r : EngineRes)
  | pickOp (r : EngineRes)
  | resetOp
  | queryVoltOp (r : EngineRes)
  | queryCurrOp (r : EngineRes)
deriving DecidableEq

/-- State transition of a single session call (result queries never change the
flags; their error/engine behaviour is in `getSCVoltage`/`getSCCurrent`). -/
def stepOp (s : FaultState) : FaultOp → FaultState
  | .doFaultOp r => (doFault s r).1
  | .doSteppedOp r => (doSteppedEvent s r).1
  | .pickOp r => (pickFault s r).1
  | .resetOp => resetFault s
  | .queryVoltOp _ => s
  | .queryCurrOp _ => s

/-- Run a sequence of session calls from the initial state (both flags false,
as in a freshly constructed `OlxAPI`). -/
def runOps (ops : List FaultOp) : FaultState :=
  ops.foldl stepOp ⟨false, false⟩

/-- Result of one wrapped "get next handle" native call: the procedure either
writes the next handle and returns `OLXAPIOk`, returns the `-1` exhaustion
sentinel (surfaced as `io.EOF`), or returns `OLXAPIFailure` with an error. -/
inductive IterRes where
  | ok (hnd : Int)
  | eof
  | fail (e : GoError)
deriving DecidableEq

/-- State of the `NextEquipment` cursor of `iterator.go` (also
`NextBusEquipment` and `NextRelay`, which share its control flow). -/
structure NextEqState where
  hnd : Int
  done : Bool
  err : Option GoError
deriving DecidableEq

/-- `NextEquipment.Next` from `iterator.go`: when already done, returns
`false`.  On `io.EOF` marks done and returns `false` without recording an
error.  On any other error it marks done and records the error, but control
falls through to the final `return true`. -/
def nextEquipmentNext (st : NextEqState) (r : IterRes) : Bool × NextEqState :=
  if st.done then (false, st)
  else
    match r with
    | .ok h => (true, { st with hnd := h })
    | .eof => (false, { st with done := true })
    | .fail e => (true, { st with done := true, err := some e })

/-- State of the unexported `handleIterator` (the other snapshot of the
iterator file): a handle and a done flag, with no error field at all. -/
structure HandleIterState where
  hnd : Int
  done : Bool
deriving DecidableEq

/-- `handleIterator.Next`: any error from the wrapped procedure, sentinel or
not, sets `done` and returns `false`; nothing is recorded. -/
def handleIteratorNext (st : HandleIterState) (r : IterRes) : Bool × HandleIterState :=
  if st.done then (false, st)
  else
    match r with
    | .ok h => (true, { st with hnd := h })
    | .eof => (false, { st with done := true })
    | .fail _ => (false, { st with done := true })

/-- Fault browser index code `SFFirst` from the constants package. -/
def SFFirst : Int := 1

/-- Outcome of the `Client.PickFault` call made by `NextFault.Next` (the
`io.EOF` comparison branch exists in the code, so it is modelled). -/
inductive PickRes where
  | ok
  | eof
  | fail (e : GoError)
deriving DecidableEq

/-- State of the `NextFault` cursor of `iterator.go`. -/
structure NextFaultState where
  indx : Int
  tiers : Int
  done : Bool
  err : Option GoError
deriving DecidableEq

/-- `NextFault.Next`: when already done, returns `false` immediately (without
calling `PickFault`).  Otherwise advances the index (`0 ↦ SFFirst`, else
increment) and calls `PickFault`; any error ends the iteration, recording it
unless it is `io.EOF`. -/
def nextFaultNext (st : NextFaultState) (r : PickRes) : Bool × NextFaultState :=
  if st.done then (false, st)
  else
    let idx := if st.indx = 0 then SFFirst else st.indx + 1
    match r with
    | .ok => (true, { st with indx := idx })
    | .eof => (false, { st with indx := idx, done := true, err := none })
    | .fail e => (false, { st with indx := idx, done := true, err := some e })

/-- `NextFault.Reset`: sets `indx` to 0 and nothing else. -/
def nextFaultReset (st : NextFaultState) : NextFaultState :=
  { st with indx := 0 }

/-- Dynamic (runtime) values held in `Data.data` (`[]interface{}`).  `getData`
produces `string`, `float64` (represented by its bit pattern), `int`,
`[]string`, `[]float64` and `[]int32` values, and a `nil` entry for a failed
token; `[]int` is listed because `convertAssignData` has a case for it. -/
inductive GoValue where
  | vNil
  | vStr (s : String)
  | vFloat (bits : Nat)
  | vInt (n : Int)
  | vStrArr (l : List String)
  | vFloatArr (l : List Nat)
  | vInt32Arr (l : List Int)
  | vIntArr (l : List Int)
deriving DecidableEq

/-- Go's dynamic type name of a value, as printed by the `%T` verb in the
`unsupported Scan` error message. -/
def typeName : GoValue → String
  | .vNil => "<nil>"
  | .vStr _ => "string"
  | .vFloat _ => "float64"
  | .vInt _ => "int"
  | .vStrArr _ => "[]string"
  | .vFloatArr _ => "[]float64"
  | .vInt32Arr _ => "[]int32"
  | .vIntArr _ => "[]int"

/-- The pointer types `convertAssignData` dispatches on. -/
inductive DestTy where
  | pStr
  | pFloat
  | pInt
  | pStrArr
  | pFloatArr
  | pIntArr
deriving DecidableEq

/-- Go's dynamic type name of a destination pointer, for the error message. -/
def destTypeName : DestTy → String
  | .pStr => "*string"
  | .pFloat => "*float64"
  | .pInt => "*int"
  | .pStrArr => "*[]string"
  | .pFloatArr => "*[]float64"
  | .pIntArr => "*[]int"

/-- A caller-provided destination: its pointer type and whether it is nil. -/
structure GoPtr where
  ty : DestTy
  isNil : Bool
deriving DecidableEq

/-- The specification-side notion of "the destination's pointer type matches
the decoded value's dynamic type" (note that a `[]int32` value does not match
a `*[]int` destination: those are distinct Go types). -/
def tyMatches : DestTy → GoValue → Bool
  | .pStr, .vStr _ => true
  | .pFloat, .vFloat _ => true
  | .pInt, .vInt _ => true
  | .pStrArr, .vStrArr _ => true
  | .pFloatArr, .vFloatArr _ => true
  | .pIntArr, .vIntArr _ => true
  | _, _ => false

/-- `convertAssignData` from `goolx.go`: a type switch on the source value
and destination pointer.  A matching pair succeeds unless the pointer is nil;
every other combination produces the `unsupported Scan` error. -/
def convertAssignData (dst : GoPtr) (src : GoValue) : Except GoError Unit :=
  match src, dst.ty with
  | .vStr _, .pStr => if dst.isNil then .error .nilPointer else .ok ()
  | .vFloat _, .pFloat => if dst.isNil then .error .nilPointer else .ok ()
  | .vInt _, .pInt => if dst.isNil then .error .nilPointer else .ok ()
  | .vStrArr _, .pStrArr => if dst.isNil then .error .nilPointer else .ok ()
  | .vFloatArr _, .pFloatArr => if dst.isNil then .error .nilPointer else .ok ()
  | .vIntArr _, .pIntArr => if dst.isNil then .error .nilPointer else .ok ()
  | s, t => .error (.unsupportedScan (typeName s) (destTypeName t))

/-- The `Data` struct returned by `Client.GetData`. -/
structure Data where
  err : Option GoError
  tokens : List Int
  data : List GoValue
deriving DecidableEq

/-- Outcome of `Data.Scan`: success or an error, each carrying the list of
(index, value) assignments performed into destinations before returning, or a
runtime panic (indexing `d.data` out of range). -/
inductive ScanResult where
  | ok (writes : List (Nat × GoValue))
  | fail (e : GoError) (writes : List (Nat × GoValue))
  | panicked (writes : List (Nat × GoValue))
deriving DecidableEq

/-- The `for i, p := range dest` loop body of `Data.Scan`: destination `i` is
assigned `d.data[i]`; a conversion error is returned at once. -/
def scanLoop (ds : List GoValue) : List GoPtr → Nat → List (Nat × GoValue) → ScanResult
  | [], _, acc => .ok acc.reverse
  | p :: ps, i, acc =>
      match ds[i]? with
      | none => .panicked acc.reverse
      | some v =>
          match convertAssignData p v with
          | .error e => .fail e acc.reverse
          | .ok () => scanLoop ds ps (i + 1) ((i, v) :: acc)

/-- `Data.Scan`: returns the stored batch error first (populating nothing),
then checks the token count against the data count, then assigns each
destination in order. -/
def scan (d : Data) (dest : List GoPtr) : ScanResult :=
  match d.err with
  | some e => .fail e []
  | none =>
      if d.tokens.length ≠ d.data.length then .fail .tokenDataMismatch []
      else scanLoop d.data dest 0 []

/-- The token loop of `Client.GetData`: `fetch` is the per-token behaviour of
the unexported `getData` (engine call plus decoding).  Each failure overwrites
`data.err`; a failed token contributes a nil entry to the data slice. -/
def getDataBatch (fetch : Int → Except GoError GoValue) :
    List Int → Option GoError × List GoValue
  | [] => (none, [])
  | t :: ts =>
      let rest := getDataBatch fetch ts
      match fetch t with
      | .ok v => (rest.1, v :: rest.2)
      | .error e => (some (rest.1.getD e), .vNil :: rest.2)

/-- `Client.GetData`: assembles the `Data` struct for a token list. -/
def clientGetData (fetch : Int → Except GoError GoValue) (tokens : List Int) : Data :=
  let r := getDataBatch fetch tokens
  ⟨r.1, tokens, r.2⟩

/-- The error of the last token that failed in the batch, if any (later
failures take precedence over earlier ones). -/
def lastFetchErr (fetch : Int → Except GoError GoValue) : List Int → Option GoError
  | [] => none
  | t :: ts =>
      match lastFetchErr fetch ts, fetch t with
      | some e', _ => some e'
      | none, .error e => some e
      | none, .ok _ => none

/-- `float64ToUint32` from `internal/olxapi/utils.go`, at the level of bit
patterns: the input is the 64-bit pattern of the double (`math.Float64bits`,
a natural number below `2^64`) and the output is its reinterpretation as
`[2]uint32` on the little-endian 32-bit target, i.e. (low word, high word). -/
def float64ToUint32 (bits : Nat) : Nat × Nat :=
  (bits % 2 ^ 32, bits / 2 ^ 32)

/-- The reassembly described by the claim: low word as bits 0-31, high word
as bits 32-63 of a 64-bit pattern. -/
def joinWords (w : Nat × Nat) : Nat :=
  w.1 + 2 ^ 32 * w.2

/-- `NewPhasor` from the phasor file (`cmplx.Rect(mag, ang*π/180)`), with the
float64 arithmetic idealized as exact real arithmetic. -/
noncomputable def newPhasor (mag ang : ℝ) : ℂ :=
  Complex.ofReal (mag * Real.cos (ang * Real.pi / 180)) +
    Complex.ofReal (mag * Real.sin (ang * Real.pi / 180)) * Complex.I

/-- The rotation operator `a1 = 1∠120°`. -/
noncomputable def a1 : ℂ := newPhasor 1 120

/-- The rotation operator `a2 = 1∠240°`. -/
noncomputable def a2 : ℂ := newPhasor 1 240

/-- `PhaseToSeq`: the forward Fortescue transform, returning
(seq0, seq1, seq2). -/
noncomputable def phaseToSeq (a b c : ℂ) : ℂ × ℂ × ℂ :=
  ((1 / 3 : ℂ) * (a + b + c),
   (1 / 3 : ℂ) * (a + a1 * b + a2 * c),
   (1 / 3 : ℂ) * (a + a2 * b + a1 * c))

/-- `SeqToPhase`: the inverse Fortescue transform, returning (a, b, c). -/
noncomputable def seqToPhase (s0 s1 s2 : ℂ) : ℂ × ℂ × ℂ :=
  (s0 + s1 + s2, s0 + a2 * s1 + a1 * s2, s0 + a1 * s1 + a2 * s2)

/-- Concrete per-token fetch oracle used by witnesses: token 1 decodes to the
integer 7, every other token fails with a `GetData` engine error. -/
def fetchSample : Int → Except GoError GoValue :=
  fun t => if t = 1 then .ok (.vInt 7) else .error (.apiErr "GetData" "bad token")

/-- Concrete fetch oracle on which two distinct tokens fail with two distinct
errors (token 1 first, token 2 second). -/
def fetchTwoErrs : Int → Except GoError GoValue :=
  fun t =>
    if t = 1 then .error (.apiErr "GetData" "first error")
    else if t = 2 then .error (.apiErr "GetData" "second error")
    else .ok (.vInt 0)

theorem stepOp_inv (s : FaultState) (op : FaultOp)
    (h : (!s.faultPicked || s.faultRun) = true) :
    (!(stepOp s op).faultPicked || (stepOp s op).faultRun) = true := by
  obtain ⟨run, picked⟩ := s
  cases op with
  | doFaultOp r => cases r <;> rfl
  | doSteppedOp r => cases r <;> rfl
  | pickOp r =>
      cases run with
      | false => simpa [stepOp, pickFault] using h
      | true => cases r <;> rfl
  | resetOp => rfl
  | queryVoltOp r => exact h
  | queryCurrOp r => exact h

theorem foldl_stepOp_inv (ops : List FaultOp) : ∀ (s : FaultState),
    (!s.faultPicked || s.faultRun) = true →
    (!(ops.foldl stepOp s).faultPicked || (ops.foldl stepOp s).faultRun) = true := by
  induction ops with
  | nil => intro s h; exact h
  | cons op ops ih => intro s h; exact ih _ (stepOp_inv s op h)

/-- Claim C1: every `DoFault` / `DoSteppedEvent` call resets the session flags
before the engine is invoked (the action trace begins with the reset, then the
engine call); at return the state is `(run=true, picked=false)` on engine
success, and on engine failure an error is returned with the state left at
`(run=false, picked=false)`. -/
theorem c1_doFault_resets_flags (s : FaultState) (m : String) :
    doFault s .ok = (⟨true, false⟩, none, [.reset, .engineCall, .setRun]) ∧
    doFault s (.fail m) =
      (⟨false, false⟩, some (.apiErr "DoFault" m), [.reset, .engineCall, .setRun, .reset]) ∧
    doSteppedEvent s .ok = (⟨true, false⟩, none, [.reset, .engineCall, .setRun]) ∧
    doSteppedEvent s (.fail m) =
      (⟨false, false⟩, some (.apiErr "DoSteppedEvent" m), [.reset, .engineCall, .setRun, .reset]) :=
  ⟨rfl, rfl, rfl, rfl⟩

/-- Claim C2: with `run = false`, `PickFault` returns the "fault not
simulated" error without invoking the engine (third component `false`), and
`GetSCVoltage` / `GetSCCurrent` return "fault not simulated" when `run` is
false (whatever `picked` is, showing `run` is checked first) and "fault not
picked" when `run` is true but `picked` is false, in both cases without
calling the engine. -/
theorem c2_query_guards (picked : Bool) (r : EngineRes) :
    pickFault ⟨false, picked⟩ r = (⟨false, picked⟩, some (.faultNotRun "PickFault"), false) ∧
    getSCVoltage ⟨false, picked⟩ r = (some (.faultNotRun "GetSCVoltage"), false) ∧
    getSCCurrent ⟨false, picked⟩ r = (some (.faultNotRun "GetSCCurrent"), false) ∧
    getSCVoltage ⟨true, false⟩ r = (some (.faultNotPicked "GetSCVoltage"), false) ∧
    getSCCurrent ⟨true, false⟩ r = (some (.faultNotPicked "GetSCCurrent"), false) :=
  ⟨rfl, rfl, rfl, rfl, rfl⟩

/-- Claim C3: in every state reachable by any sequence of `DoFault`,
`DoSteppedEvent`, `PickFault`, `resetFault` and result-query calls from the
initial state, `picked ⇒ run` holds on the `(faultRun, faultPicked)` pair. -/
theorem c3_picked_implies_run (ops : List FaultOp) :
    (!(runOps ops).faultPicked || (runOps ops).faultRun) = true :=
  foldl_stepOp_inv ops ⟨false, false⟩ rfl

/-- Claim C6 (failing input, from `NextEquipment.Next`): when the wrapped
procedure reports the exhaustion sentinel the cursor returns `false` with no
error recorded, as claimed; but on any other failure the failing `Next()` call
records the error, marks the cursor done, and returns `true` (the claim and
the method's own documentation say `false`); only the following call returns
`false`.  The `handleIterator` variant does return `false` on a failure, but
records nothing: its state after a failure is identical to its state after
the sentinel, so exhaustion and failure cannot be distinguished there. -/
theorem c6_failure_returns_true :
    nextEquipmentNext ⟨0, false, none⟩ (.fail (.apiErr "GetEquipment" "boom")) =
      (true, ⟨0, true, some (.apiErr "GetEquipment" "boom")⟩) ∧
    nextEquipmentNext ⟨0, true, some (.apiErr "GetEquipment" "boom")⟩ (.ok 5) =
      (false, ⟨0, true, some (.apiErr "GetEquipment" "boom")⟩) ∧
    nextEquipmentNext ⟨0, false, none⟩ .eof = (false, ⟨0, true, none⟩) ∧
    handleIteratorNext ⟨0, false⟩ (.fail (.apiErr "GetEquipment" "boom")) = (false, ⟨0, true⟩) ∧
    (handleIteratorNext ⟨0, false⟩ (.fail (.apiErr "GetEquipment" "boom"))).2 =
      (handleIteratorNext ⟨0, false⟩ .eof).2 :=
  ⟨rfl, rfl, rfl, rfl, rfl⟩

/-- Claim C7 (failing input): a `NextFault` cursor exhausted by a failing
`PickFault` has `done = true`; `Reset()` rewinds only `indx` to 0 and leaves
`done` set, so the following `Next()` returns `false` immediately — without
attempting to pick `SFFirst` — even though the engine would now succeed.  The
cursor therefore cannot restart after exhaustion, contradicting the claim and
the method's own documentation ("Iterator may be reused after calling Reset"). -/
theorem c7_reset_leaves_cursor_exhausted :
    nextFaultNext ⟨0, 1, false, none⟩ (.fail (.apiErr "PickFault" "no more")) =
      (false, ⟨SFFirst, 1, true, some (.apiErr "PickFault" "no more")⟩) ∧
    nextFaultReset ⟨SFFirst, 1, true, some (.apiErr "PickFault" "no more")⟩ =
      ⟨0, 1, true, some (.apiErr "PickFault" "no more")⟩ ∧
    nextFaultNext ⟨0, 1, true, some (.apiErr "PickFault" "no more")⟩ .ok =
      (false, ⟨0, 1, true, some (.apiErr "PickFault" "no more")⟩) :=
  ⟨rfl, rfl, rfl⟩

/-- Claim C9: splitting a 64-bit double bit pattern into two 32-bit words
(low word as bits 0-31, high word as bits 32-63) and reassembling them yields
exactly the original pattern, and both words fit in 32 bits: the split is a
pure, invertible bit reinterpretation with no rounding. -/
theorem c9_split_join (bits : Nat) (h : bits < 2 ^ 64) :
    joinWords (float64ToUint32 bits) = bits ∧
    (float64ToUint32 bits).1 < 2 ^ 32 ∧ (float64ToUint32 bits).2 < 2 ^ 32 := by
  refine ⟨?_, Nat.mod_lt _ (by norm_num), ?_⟩
  · simp [joinWords, float64ToUint32, Nat.mod_add_div]
  · have h2 : (0 : ℕ) < 2 ^ 32 := by positivity
    refine (Nat.div_lt_iff_lt_mul h2).mpr ?_
    calc bits < 2 ^ 64 := h
      _ = 2 ^ 32 * 2 ^ 32 := by norm_num

/-- Witness for C9 at the bit pattern of the double 3.141592653589793. -/
theorem c9_split_join_witness :
    (0x400921FB54442D18 : Nat) < 2 ^ 64 ∧
    joinWords (float64ToUint32 0x400921FB54442D18) = 0x400921FB54442D18 :=
  ⟨by norm_num, (c9_split_join 0x400921FB54442D18 (by norm_num)).1⟩

theorem getDataBatch_data (fetch : Int → Except GoError GoValue) :
    ∀ ts : List Int, (getDataBatch fetch ts).2 =
      ts.map (fun t => match fetch t with | .ok v => v | .error _ => GoValue.vNil) := by
  intro ts
  induction ts with
  | nil => rfl
  | cons t ts ih =>
      simp only [getDataBatch, List.map]
      cases h1 : fetch t <;> simp [h1, ih]

theorem getDataBatch_err (fetch : Int → Except GoError GoValue) :
    ∀ ts : List Int, (getDataBatch fetch ts).1 = lastFetchErr fetch ts := by
  intro ts
  induction ts with
  | nil => rfl
  | cons t ts ih =>
      simp only [getDataBatch, lastFetchErr]
      cases h1 : fetch t <;> cases h2 : lastFetchErr fetch ts <;>
        simp [h1, h2, ih, Option.getD]

theorem convert_mismatch_err (p : GoPtr) (v : GoValue)
    (h : tyMatches p.ty v = false) :
    convertAssignData p v = .error (.unsupportedScan (typeName v) (destTypeName p.ty)) := by
  obtain ⟨ty, nl⟩ := p
  cases ty <;> cases v <;> first
    | rfl
    | simp [tyMatches] at h

theorem convert_ok_matches (p : GoPtr) (v : GoValue)
    (h : convertAssignData p v = .ok ()) : tyMatches p.ty v = true := by
  obtain ⟨ty, nl⟩ := p
  cases ty <;> cases v <;> cases nl <;> first
    | rfl
    | simp [convertAssignData] at h

theorem convert_error_not_mismatch (p : GoPtr) (v : GoValue) (e : GoError)
    (h : convertAssignData p v = .error e) : e ≠ .tokenDataMismatch := by
  intro he
  subst he
  obtain ⟨ty, nl⟩ := p
  cases ty <;> cases v <;> cases nl <;>
    simp [convertAssignData, typeName, destTypeName] at h

theorem scanLoop_ok_matches (ds : List GoValue) :
    ∀ (ps : List GoPtr) (i : Nat) (acc ws : List (Nat × GoValue)),
      scanLoop ds ps i acc = .ok ws →
      ∀ j (hj : j < ps.length), ∃ v, ds[i + j]? = some v ∧
        tyMatches (ps.get ⟨j, hj⟩).ty v = true := by
  intro ps
  induction ps with
  | nil =>
      intro i acc ws _ j hj
      exact absurd hj (by simp)
  | cons p ps ih =>
      intro i acc ws h j hj
      simp only [scanLoop] at h
      cases hv : ds[i]? with
      | none => rw [hv] at h; exact absurd h (by simp)
      | some v =>
          simp only [hv] at h
          cases hc : convertAssignData p v with
          | error e => simp only [hc] at h; exact absurd h (by simp)
          | ok u =>
              simp only [hc] at h
              cases j with
              | zero =>
                  refine ⟨v, by simpa using hv, ?_⟩
                  exact convert_ok_matches p v (by rw [hc])
              | succ j' =>
                  have hj' : j' < ps.length := by
                    simpa [Nat.succ_lt_succ_iff] using hj
                  have := ih (i + 1) ((i, v) :: acc) ws h j' hj'
                  have hidx : i + 1 + j' = i + (j' + 1) := by omega
                  rw [hidx] at this
                  simpa using this

theorem scanLoop_no_token_mismatch (ds : List GoValue) :
    ∀ (ps : List GoPtr) (i : Nat) (acc ws : List (Nat × GoValue)),
      scanLoop ds ps i acc ≠ .fail .tokenDataMismatch ws := by
  intro ps
  induction ps with
  | nil => intro i acc ws h; simp [scanLoop] at h
  | cons p ps ih =>
      intro i acc ws h
      simp only [scanLoop] at h
      cases hv : ds[i]? with
      | none => rw [hv] at h; simp at h
      | some v =>
          simp only [hv] at h
          cases hc : convertAssignData p v with
          | error e =>
              simp only [hc] at h
              have he : e = GoError.tokenDataMismatch := by
                injection h
              exact convert_error_not_mismatch p v e hc he
          | ok u => simp only [hc] at h; exact ih _ _ _ h

/-- Claim C4 (amended): `GetData` evaluates every requested token even when an
earlier token fails (the data slice holds each token's decoded value, nil for
failures), and a subsequent `Scan` reports the error of the LAST token that
failed — each failure overwrites the stored batch error — without populating
any destination. -/
theorem c4_batch_last_error (fetch : Int → Except GoError GoValue) (tokens : List Int)
    (dest : List GoPtr) (e : GoError)
    (h : (clientGetData fetch tokens).err = some e) :
    (clientGetData fetch tokens).data =
      tokens.map (fun t => match fetch t with | .ok v => v | .error _ => GoValue.vNil) ∧
    (clientGetData fetch tokens).err = lastFetchErr fetch tokens ∧
    scan (clientGetData fetch tokens) dest = .fail e [] := by
  refine ⟨getDataBatch_data fetch tokens, getDataBatch_err fetch tokens, ?_⟩
  unfold scan
  rw [h]

/-- Witness for the amended C4 on a concrete two-token batch whose tokens both
fail. -/
theorem c4_batch_last_error_witness :
    (clientGetData fetchTwoErrs [1, 2]).err = some (.apiErr "GetData" "second error") ∧
    scan (clientGetData fetchTwoErrs [1, 2]) [] =
      .fail (.apiErr "GetData" "second error") [] :=
  ⟨by decide,
   (c4_batch_last_error fetchTwoErrs [1, 2] []
      (.apiErr "GetData" "second error") (by decide)).2.2⟩

/-- Claim C4 counterexample: tokens 1 and 2 both fail, token 1 first with
"first error"; `Scan` on the returned `Data` reports the second token's error,
not the first token's, refuting the claim as stated. -/
theorem c4_counterexample :
    fetchTwoErrs 1 = .error (.apiErr "GetData" "first error") ∧
    fetchTwoErrs 2 = .error (.apiErr "GetData" "second error") ∧
    scan (clientGetData fetchTwoErrs [1, 2]) [] =
      .fail (.apiErr "GetData" "second error") [] ∧
    GoError.apiErr "GetData" "second error" ≠ GoError.apiErr "GetData" "first error" := by
  refine ⟨rfl, rfl, by decide, by decide⟩

/-- Claim C5 (amended): a destination whose pointer type does not match the
decoded value's dynamic type always produces the `unsupported Scan` error (no
silent conversion or narrowing), and a `Scan` only succeeds when every
processed destination matched its value; the count that `Scan` checks is the
token count against the DATA count — the number of destinations is never
compared against the number of requested tokens. -/
theorem c5_scan_type_and_count (p : GoPtr) (v : GoValue) (d : Data)
    (dests : List GoPtr) (ws : List (Nat × GoValue)) :
    (tyMatches p.ty v = false →
      convertAssignData p v = .error (.unsupportedScan (typeName v) (destTypeName p.ty))) ∧
    (d.err = none → d.tokens.length ≠ d.data.length →
      scan d dests = .fail .tokenDataMismatch []) ∧
    (scan d dests = .ok ws → ∀ j (hj : j < dests.length),
      ∃ u, d.data[j]? = some u ∧ tyMatches (dests.get ⟨j, hj⟩).ty u = true) := by
  refine ⟨convert_mismatch_err p v, ?_, ?_⟩
  · intro h1 h2
    unfold scan
    rw [h1, if_pos h2]
  · intro h j hj
    unfold scan at h
    cases he : d.err with
    | some e => rw [he] at h; exact absurd h (by simp)
    | none =>
        rw [he] at h
        by_cases hlen : d.tokens.length ≠ d.data.length
        · rw [if_pos hlen] at h; exact absurd h (by simp)
        · rw [if_neg hlen] at h
          have := scanLoop_ok_matches d.data dests 0 [] ws h j hj
          simpa using this

/-- Witness for the amended C5: a concrete type mismatch errors, a concrete
token/data count mismatch errors, and a concrete successful scan has a
matching destination. -/
theorem c5_scan_type_and_count_witness :
    convertAssignData ⟨.pInt, false⟩ (.vStr "x") =
      .error (.unsupportedScan "string" "*int") ∧
    scan ⟨none, [1, 2], [.vInt 7]⟩ [] = .fail .tokenDataMismatch [] ∧
    (∃ u, ([GoValue.vInt 7] : List GoValue)[0]? = some u ∧
      tyMatches DestTy.pInt u = true) :=
  ⟨(c5_scan_type_and_count ⟨.pInt, false⟩ (.vStr "x") ⟨none, [1, 2], [.vInt 7]⟩ [] []).1
      (by decide),
   (c5_scan_type_and_count ⟨.pInt, false⟩ (.vStr "x") ⟨none, [1, 2], [.vInt 7]⟩ [] []).2.1
      rfl (by decide),
   (c5_scan_type_and_count ⟨.pInt, false⟩ (.vStr "x") ⟨none, [1], [.vInt 7]⟩
      [⟨.pInt, false⟩] [(0, .vInt 7)]).2.2 (by decide) 0 (by decide)⟩

/-- Claim C5 counterexample: `Scan` with one destination against a `Data` of
two tokens and two decoded values succeeds (populating only the first
destination) — no error is returned although the number of destinations (1)
differs from the number of requested tokens (2). -/
theorem c5_counterexample :
    scan ⟨none, [1, 2], [.vInt 7, .vInt 8]⟩ [⟨.pInt, false⟩] = .ok [(0, .vInt 7)] := by
  decide

/-- Claim C10: every `Data` produced by `GetData` has exactly one data entry
per requested token (the failed ones contributing a nil entry), so the token
count always equals the data count and the `token and data numbers don't
match` branch of `Scan` is unreachable for such values. -/
theorem c10_data_entry_per_token (fetch : Int → Except GoError GoValue) (tokens : List Int) :
    (clientGetData fetch tokens).tokens = tokens ∧
    (clientGetData fetch tokens).data =
      tokens.map (fun t => match fetch t with | .ok v => v | .error _ => GoValue.vNil) ∧
    (clientGetData fetch tokens).tokens.length = (clientGetData fetch tokens).data.length ∧
    (∀ (dests : List GoPtr) (ws : List (Nat × GoValue)),
      (clientGetData fetch tokens).err = none →
      scan (clientGetData fetch tokens) dests ≠ .fail .tokenDataMismatch ws) := by
  have hd := getDataBatch_data fetch tokens
  have hlen : (clientGetData fetch tokens).tokens.length =
      (clientGetData fetch tokens).data.length := by
    show tokens.length = (getDataBatch fetch tokens).2.length
    rw [hd, List.length_map]
  refine ⟨rfl, hd, hlen, ?_⟩
  intro dests ws he hcontra
  unfold scan at hcontra
  rw [he, if_neg (fun hne => hne hlen)] at hcontra
  exact scanLoop_no_token_mismatch _ dests 0 [] ws hcontra

/-- Witness for C10 on a concrete one-token batch. -/
theorem c10_data_entry_per_token_witness :
    (clientGetData fetchSample [1]).err = none ∧
    scan (clientGetData fetchSample [1]) [] ≠ .fail .tokenDataMismatch [] :=
  ⟨by decide, (c10_data_entry_per_token fetchSample [1]).2.2.2 [] [] (by decide)⟩

theorem a1_eq_exp : a1 = Complex.exp (2 * (Real.pi : ℂ) * Complex.I / 3) := by
  unfold a1 newPhasor
  rw [show (120 : ℝ) * Real.pi / 180 = 2 * Real.pi / 3 by ring]
  rw [one_mul, one_mul, Complex.ofReal_cos, Complex.ofReal_sin, ← Complex.exp_mul_I]
  congr 1
  push_cast
  ring

theorem a1_cube : a1 ^ 3 = 1 := by
  have h := (Complex.isPrimitiveRoot_exp 3 (by norm_num)).pow_eq_one
  rw [a1_eq_exp]
  simpa using h

theorem a1_ne_one : a1 ≠ 1 := by
  have h := (Complex.isPrimitiveRoot_exp 3 (by norm_num)).ne_one (by norm_num)
  rw [a1_eq_exp]
  simpa using h

theorem a1_sum : a1 ^ 2 + a1 + 1 = 0 := by
  have hc : (a1 - 1) * (a1 ^ 2 + a1 + 1) = 0 := by
    linear_combination a1_cube
  rcases mul_eq_zero.mp hc with h | h
  · exact absurd (sub_eq_zero.mp h) a1_ne_one
  · exact h

theorem a2_eq_sq : a2 = a1 ^ 2 := by
  unfold a2 newPhasor
  rw [show (240 : ℝ) * Real.pi / 180 = 4 * Real.pi / 3 by ring]
  rw [one_mul, one_mul, Complex.ofReal_cos, Complex.ofReal_sin, ← Complex.exp_mul_I]
  rw [a1_eq_exp, sq, ← Complex.exp_add]
  congr 1
  push_cast
  ring

/-- Claim C8: for every triple of phase phasors (a, b, c), applying
`PhaseToSeq` and then `SeqToPhase` reproduces (a, b, c) — the Fortescue
forward/inverse round-trip law.  The float64 complex arithmetic of the source
is idealized as exact complex arithmetic, in which the round-trip is exact
(so in the source it holds up to floating-point tolerance). -/
theorem c8_fortescue_roundtrip (a b c : ℂ) :
    seqToPhase (phaseToSeq a b c).1 (phaseToSeq a b c).2.1 (phaseToSeq a b c).2.2 =
      (a, b, c) := by
  have h3 := a1_cube
  have hs := a1_sum
  simp only [seqToPhase, phaseToSeq, Prod.mk.injEq]
  rw [a2_eq_sq]
  refine ⟨?_, ?_, ?_⟩
  · linear_combination ((b + c) / 3) * hs
  · linear_combination ((a + c) / 3) * hs + ((2 * b + c * a1) / 3) * h3
  · linear_combination ((a + b) / 3) * hs + ((b * a1 + 2 * c) / 3) * h3

end Goolx
